import Mathlib

/-!
# Verification of the VPCS device proxy (`gns3/modules/vpcs/vpcs_device.py`)

A shallow embedding of the settings-reconciliation and configuration-transfer
logic of the `VPCSDevice` class: Python dictionaries become association lists
over a `Value` type mirroring the Python runtime values that actually flow
through this code (None, strings, integers), stateful methods become pure
functions from their inputs to their outputs (the mutated caller dictionary,
the outgoing request parameters, the emitted signals, the written file), and
the filesystem and the HTTP transport become explicit parameters.
-/

set_option autoImplicit false

namespace VPCS

/-- A Python runtime value as it occurs in this module's settings and
responses: `None`, a string, or an integer (console port numbers).
Equality mirrors Python `==` on these values: `None` equals only `None`,
and a string never equals an integer. -/
inductive Value where
  | null
  | str (s : String)
  | int (n : Int)
  deriving DecidableEq, Repr

/-- Python truthiness for the values above: `None`, `""` and `0` are falsy. -/
def truthy : Value → Bool
  | Value.null => false
  | Value.str s => !(s == "")
  | Value.int n => !(n == 0)

/-- A Python dictionary, embedded as an association list.  A real `dict` has
unique keys; `WF` below captures that invariant where a proof needs it. -/
abbrev Dict := List (String × Value)

/-- First value stored under `k`, or `none` when the key is absent. -/
def getv? : Dict → String → Option Value
  | [], _ => none
  | (k, v) :: rest, key => if k = key then some v else getv? rest key

/-- Python `key in d`. -/
def containsKey (d : Dict) (k : String) : Bool :=
  (getv? d k).isSome

/-- Python `d.get(key)`: the stored value, or `None` when absent. -/
def pyget (d : Dict) (k : String) : Value :=
  (getv? d k).getD Value.null

/-- Python `d[key] = v`: replace the value at an existing key in place,
else append the new entry. -/
def setKey : Dict → String → Value → Dict
  | [], key, v => [(key, v)]
  | (k, w) :: rest, key, v =>
      if k = key then (key, v) :: rest else (k, w) :: setKey rest key v

/-- Python `del d[key]` (on a dict, which holds the key at most once):
drop every entry with that key. -/
def eraseKey (d : Dict) (k : String) : Dict :=
  d.filter (fun kv => kv.1 ≠ k)

/-- The keys of the dictionary, in storage order. -/
def keys (d : Dict) : List String :=
  d.map Prod.fst

/-- The defining invariant of a Python `dict`: no key occurs twice. -/
def WF (d : Dict) : Prop :=
  (keys d).Nodup

instance (d : Dict) : Decidable (WF d) := by
  unfold WF; infer_instance

/-- POSIX `os.path.basename`: the suffix of the path after its last `/`. -/
def basenameAux : List Char → List Char → List Char
  | [], acc => acc
  | c :: rest, acc =>
      if c = '/' then basenameAux rest [] else basenameAux rest (acc ++ [c])

/-- `os.path.basename` on the string level. -/
def basename (p : String) : String :=
  String.mk (basenameAux p.data [])

/-- POSIX `os.path.join` of a directory and a file name. -/
def joinPath (d f : String) : String :=
  if f.startsWith "/" then f
  else if d = "" then f
  else if d.endsWith "/" then d ++ f
  else d ++ "/" ++ f

/-- The local filesystem as seen by this module: `isfile` is
`os.path.isfile`, and `readBaseConfig` is the base class helper
`_readBaseConfig`, which returns the whole file content or `none` when the
read fails (the helper catches its own I/O errors). -/
structure FS where
  isfile : String → Bool
  readBaseConfig : String → Option String

end VPCS

namespace VPCSDevice

open VPCS

/-- The device-specific settings registered at construction
(`vpcs_settings` in `__init__`), updated into the base entity's settings
map, which also holds the device `name`. -/
def freshSettings : Dict :=
  [("name", Value.null),
   ("console_host", Value.null),
   ("startup_script", Value.null),
   ("startup_script_path", Value.null),
   ("console", Value.null)]

/-- The `script_file` block shared verbatim by `create` and `update`: when
a `script_file` path is present and names an existing file whose read
succeeds, its content becomes `startup_script`; `script_file` is always
deleted once seen. -/
def resolveScriptFile (fs : FS) (d : Dict) : Dict :=
  if containsKey d "script_file" then
    eraseKey
      (match getv? d "script_file" with
       | some (Value.str p) =>
           if fs.isfile p then
             match fs.readBaseConfig p with
             | some content => setKey d "startup_script" (Value.str content)
             | none => d
           else d
       | _ => d)
      "script_file"
  else d

/-- The `script_file` resolution followed by the unconditional
`startup_script_path` removal, as both `create` and `update` perform it. -/
def resolveScriptSettings (fs : FS) (d : Dict) : Dict :=
  if containsKey (resolveScriptFile fs d) "startup_script_path" then
    eraseKey (resolveScriptFile fs d) "startup_script_path"
  else resolveScriptFile fs d

/-- Outcome of `create`: the parameter dictionary handed to the base
`_create` call, and the caller's `additional_settings` dictionary as it
stands after the call (the method mutates it in place; `params` starts
empty and is `update`d from it, so both hold the same entries). -/
structure CreateResult where
  params : Dict
  mutated : Dict
  deriving DecidableEq, Repr

/-- `VPCSDevice.create`: resolve `script_file`, drop `startup_script_path`,
and drop `startup_script` when the device already has a server-side id
(`node_id is not None`; the Python `None` argument is `Value.null`). -/
def create (fs : FS) (node_id : Value) (additional_settings : Dict) : CreateResult :=
  let a := resolveScriptSettings fs additional_settings
  let a :=
    if containsKey a "startup_script" ∧ node_id ≠ Value.null then
      eraseKey a "startup_script"
    else a
  { params := a, mutated := a }

/-- Outcome of `update`: the caller's dictionary after in-place mutation,
the diffed patch, and whether the base `_update` network call was made. -/
structure UpdateResult where
  mutated : Dict
  patch : Dict
  called : Bool
  deriving DecidableEq, Repr

/-- `VPCSDevice.update`: resolve `script_file`, drop `startup_script_path`,
then keep only the entries whose key is a current settings key and whose
value differs from the stored one; call `_update` only on a non-empty
patch. -/
def update (fs : FS) (settings : Dict) (new_settings : Dict) : UpdateResult :=
  let ns := resolveScriptSettings fs new_settings
  let params := ns.filter (fun kv => containsKey settings kv.1 && decide (getv? settings kv.1 ≠ some kv.2))
  { mutated := ns, patch := params, called := !params.isEmpty }

/-- `VPCSDevice._updateCallback`: fold the server response into the local
settings map, overwriting exactly the recognized keys whose value differs. -/
def updateCallback (settings : Dict) (result : Dict) : Dict :=
  result.foldl
    (fun s kv =>
      if containsKey s kv.1 ∧ getv? s kv.1 ≠ some kv.2 then setKey s kv.1 kv.2 else s)
    settings

/-- `os.path.basename` as applied inside `dump`; the path value there is a
string (a non-string would raise in Python and is not exercised here). -/
def basenameV : Value → Value
  | Value.str p => Value.str (basename p)
  | v => v

/-- Modelled from the spec: the base entity's `dump()` skeleton supplies the
node representation whose `properties` sub-map this class then populates;
per §4.5 the properties sub-map is "built from every settings entry whose
value is neither null nor empty string", so the skeleton contributes an
empty properties map. -/
def baseDumpProperties : Dict := []

/-- One iteration of the `dump` loop over a settings entry. -/
def dumpStep (props : Dict) (kv : String × Value) : Dict :=
  if kv.2 ≠ Value.null ∧ kv.2 ≠ Value.str "" then
    if kv.1 ≠ "startup_script" then
      setKey props kv.1 (if kv.1 = "startup_script_path" then basenameV kv.2 else kv.2)
    else props
  else props

/-- The `dump` loop, with the properties map as fold state. -/
def dumpPropsAux : Dict → Dict → Dict
  | [], props => props
  | kv :: rest, props => dumpPropsAux rest (dumpStep props kv)

/-- `VPCSDevice.dump`, restricted to the `properties` sub-map it builds:
every settings entry that is neither `None` nor `""`, except
`startup_script`, with `startup_script_path` reduced to its basename. -/
def dumpProperties (settings : Dict) : Dict :=
  dumpPropsAux settings baseDumpProperties

/-- The backward-compatibility id chain at the top of `VPCSDevice.load`:
`node_info.get("vpcs_id")`, falling back on a falsy result to
`node_info.get("node_id")`, then to `node_info.get("vm_id")`.  A `.get` on
an absent key yields Python `None`, i.e. `Value.null`. -/
def resolveNodeId (node_info : Dict) : Value :=
  let node_id := pyget node_info "vpcs_id"
  if truthy node_id then node_id
  else
    let node_id := pyget node_info "node_id"
    if truthy node_id then node_id
    else pyget node_info "vm_id"

/-- Follows the spec's words, for comparison with `resolveNodeId`: "the
resolved id equals the value of the first key present among `vpcs_id`,
`node_id`, `vm_id` in that priority order; if none of the three keys is
present, the resolved identifier is null". -/
def specFirstPresentId (node_info : Dict) : Value :=
  if containsKey node_info "vpcs_id" then pyget node_info "vpcs_id"
  else if containsKey node_info "node_id" then pyget node_info "node_id"
  else if containsKey node_info "vm_id" then pyget node_info "vm_id"
  else Value.null

/-- The first key of the priority chain holding a truthy value decides the
result; when none does, the chain bottoms out in `node_info.get("vm_id")`. -/
def specResolveAmended (node_info : Dict) : Value :=
  match ["vpcs_id", "node_id"].find? (fun k => truthy (pyget node_info k)) with
  | some k => pyget node_info k
  | none => pyget node_info "vm_id"

/-- The settings-extraction step of `VPCSDevice.load`: keep from the
persisted `properties` map exactly the keys recognized by the current
settings map. -/
def loadVmSettings (settings properties : Dict) : Dict :=
  properties.filter (fun kv => containsKey settings kv.1)

/-- Modelled from the spec: the base `_create` flow (absent from the
source, which only calls it) establishes the device server-side and, per
§3 and §4.4, reconciles the echoed creation parameters into the settings
map by the sparse-merge rule of `_updateCallback`, and records the given
name under the base `name` settings key. -/
def applyCreate (settings : Dict) (name : Value) (params : Dict) : Dict :=
  setKey (updateCallback settings params) "name" name

/-- `VPCSDevice.load` on a fresh device: resolve the id from the persisted
record, extract the recognized settings, pop `name`
(`vm_settings.pop("name")`, which requires a `name` entry), and run the
creation protocol; the resulting settings follow the modelled base
creation flow. -/
def loadDevice (fs : FS) (node_info : Dict) (properties : Dict) : Dict :=
  let node_id := resolveNodeId node_info
  let vm_settings := loadVmSettings freshSettings properties
  let name := pyget vm_settings "name"
  let vm_settings := eraseKey vm_settings "name"
  let cr := create fs node_id vm_settings
  applyCreate freshSettings name cr.params

/-- The round trip of claim C5: dump a device with settings `s`, re-inject
the name `n` into the dumped properties, and load a fresh device from the
result (no legacy id keys in the persisted record). -/
def roundTrip (fs : FS) (s : Dict) (n : String) : Dict :=
  let props := dumpProperties s
  let props := setKey props "name" (Value.str n)
  loadDevice fs [] props

/-- A UI notification emitted by the device, as described in §6: the
device id it is tagged with and the message object passed to `emit`. -/
inductive Signal where
  | serverError (id : Int) (msg : Value)
  | errorSig (id : Int) (msg : String)
  | warningSig (id : Int) (msg : String)
  deriving DecidableEq, Repr

/-- A file produced by the export callbacks: the open path and the text
whose UTF-8 encoding is written (`open(path, "wb")` followed by an
optional `f.write(....encode("utf-8"))`; an untouched open file is an
empty file). -/
structure FileWrite where
  path : String
  content : String
  deriving DecidableEq, Repr

/-- What one run of an export callback produced. -/
structure ExportOutcome where
  signals : List Signal
  written : Option FileWrite
  deriving DecidableEq, Repr

/-- Python `str(v)` as used by `format` on the values that reach it here. -/
def fmtValue : Value → String
  | Value.null => "None"
  | Value.str s => s
  | Value.int n => toString n

/-- The script body as text for `f.write(body.encode("utf-8"))`; only
reached on a truthy body, which in this protocol is a non-empty string
(any other truthy value would raise in Python). -/
def scriptText : Value → String
  | Value.str s => s
  | v => fmtValue v

/-- `VPCSDevice._exportConfigCallback`: on a transport error, emit the
response's `message` on the server-error channel (an absent `message`
would raise in Python; the claims below always supply one); otherwise,
when the response holds a `startup_script` key, open the target file —
creating it — and write the body only when it is truthy.  `openOk` is
whether the `open` call succeeds; on failure the `OSError` handler emits
on the error channel instead. -/
def exportConfigCallback (deviceId : Int) (result : Dict) (error : Bool)
    (path : String) (openOk : Bool) : ExportOutcome :=
  if error then
    { signals := [Signal.serverError deviceId (pyget result "message")], written := none }
  else if containsKey result "startup_script" then
    if openOk then
      { signals := [],
        written := some
          { path := path,
            content :=
              if truthy (pyget result "startup_script") then
                scriptText (pyget result "startup_script")
              else "" } }
    else
      { signals := [Signal.errorSig deviceId ("could not export the script file to " ++ path)],
        written := none }
  else { signals := [], written := none }

/-- What one run of `importConfigFromDirectory` produced: the emitted
signals and, when `self.update(new_settings)` was reached, its argument. -/
structure ImportOutcome where
  signals : List Signal
  updateArg : Option Dict
  deriving DecidableEq, Repr

/-- `VPCSDevice.importConfigFromDirectory`: list the directory (the
`Except` carries `str(e)` of a failed `os.listdir`), look for
`<normalized-device-name>_startup.vpc` (the sanitized name comes from the
external `normalize_filename` collaborator), and either import it through
`update` or warn and return. -/
def importConfigFromDirectory (deviceId : Int) (normalizedName : String)
    (directory : String) (listing : Except String (List String)) : ImportOutcome :=
  match listing with
  | Except.error e =>
      { signals := [Signal.warningSig deviceId ("Can't list file in " ++ directory ++ ": " ++ e)],
        updateArg := none }
  | Except.ok contents =>
      let script_file := normalizedName ++ "_startup.vpc"
      if script_file ∈ contents then
        { signals := [],
          updateArg := some [("script_file", Value.str (joinPath directory script_file))] }
      else
        { signals := [Signal.warningSig deviceId
            ("no script file could be found, expected file name: " ++ script_file)],
          updateArg := none }

/-- A small concrete filesystem used to instantiate the theorems below:
exactly one readable script file. -/
def fsW : FS :=
  { isfile := fun p => p == "/cfg/base.vpc",
    readBaseConfig := fun p => if p == "/cfg/base.vpc" then some "set pcname PC1" else none }

/-- The settings map of a constructed device with the five registered
keys (`name` from the base entity plus the four device-specific keys of
`__init__`) holding the given values, in registration order. -/
def mkS (n : String) (ch ssv ssp c : VPCS.Value) : VPCS.Dict :=
  [("name", VPCS.Value.str n), ("console_host", ch), ("startup_script", ssv),
   ("startup_script_path", ssp), ("console", c)]

end VPCSDevice

namespace VPCS

@[simp] theorem getv?_nil (k : String) : getv? [] k = none := rfl

@[simp] theorem getv?_cons (a : String) (b : Value) (rest : Dict) (k : String) :
    getv? ((a, b) :: rest) k = if a = k then some b else getv? rest k := rfl

theorem containsKey_eq_false_iff (d : Dict) (k : String) :
    containsKey d k = false ↔ getv? d k = none := by
  cases h : getv? d k <;> simp [containsKey, h]

theorem containsKey_eq_true_iff (d : Dict) (k : String) :
    containsKey d k = true ↔ ∃ v, getv? d k = some v := by
  simp [containsKey, Option.isSome_iff_exists]

@[simp] theorem containsKey_nil (k : String) : containsKey [] k = false := rfl

theorem containsKey_cons (a : String) (b : Value) (rest : Dict) (k : String) :
    containsKey ((a, b) :: rest) k = (decide (a = k) || containsKey rest k) := by
  by_cases h : a = k <;> simp [containsKey, h]

theorem getv?_filter_key (q : String → Bool) (d : Dict) (k : String) :
    getv? (d.filter (fun kv => q kv.1)) k = if q k then getv? d k else none := by
  induction d with
  | nil => simp
  | cons kv rest ih =>
    obtain ⟨a, b⟩ := kv
    by_cases hq : q a
    · rw [List.filter_cons_of_pos (by simpa using hq)]
      by_cases hk : a = k
      · subst hk; simp [hq]
      · simp [hk, ih]
    · rw [List.filter_cons_of_neg (by simpa using hq)]
      by_cases hk : a = k
      · subst hk; simp [hq, ih]
      · simp [hk, ih]

theorem getv?_eraseKey (d : Dict) (k k' : String) :
    getv? (eraseKey d k) k' = if k' = k then none else getv? d k' := by
  induction d with
  | nil => by_cases h : k' = k <;> simp [eraseKey, h]
  | cons kv rest ih =>
    obtain ⟨a, b⟩ := kv
    simp only [eraseKey, List.filter_cons] at ih ⊢
    by_cases ha : a = k
    · subst ha
      rw [if_neg (by simp)]
      rw [ih]
      by_cases hk : k' = a
      · simp [hk]
      · simp [hk, Ne.symm hk]
    · rw [if_pos (by simpa using ha)]
      by_cases hk : a = k'
      · subst hk; simp [ha]
      · simp only [ne_eq, decide_not] at ih
        simp [hk, ih]

theorem containsKey_eraseKey (d : Dict) (k k' : String) :
    containsKey (eraseKey d k) k' = if k' = k then false else containsKey d k' := by
  by_cases h : k' = k <;> simp [containsKey, getv?_eraseKey, h]

@[simp] theorem getv?_setKey_self (d : Dict) (k : String) (v : Value) :
    getv? (setKey d k v) k = some v := by
  induction d with
  | nil => simp [setKey]
  | cons kv rest ih =>
    obtain ⟨a, b⟩ := kv
    by_cases h : a = k
    · simp [setKey, h]
    · simp [setKey, h, ih]

theorem getv?_setKey_other (d : Dict) (k k' : String) (v : Value) (h : k' ≠ k) :
    getv? (setKey d k v) k' = getv? d k' := by
  induction d with
  | nil => simp [setKey, Ne.symm h]
  | cons kv rest ih =>
    obtain ⟨a, b⟩ := kv
    by_cases ha : a = k
    · subst ha; simp [setKey, Ne.symm h]
    · simp [setKey, ha, ih]

theorem containsKey_setKey_of_containsKey (d : Dict) (k k' : String) (v : Value)
    (h : containsKey d k = true) :
    containsKey (setKey d k v) k' = containsKey d k' := by
  by_cases hk : k' = k
  · subst hk
    simp only [containsKey] at h ⊢
    rw [getv?_setKey_self, h]
    rfl
  · simp [containsKey, getv?_setKey_other d k k' v hk]

theorem keys_setKey (d : Dict) (k : String) (v : Value) :
    keys (setKey d k v) = if containsKey d k then keys d else keys d ++ [k] := by
  induction d with
  | nil => simp [setKey, keys]
  | cons kv rest ih =>
    obtain ⟨a, b⟩ := kv
    by_cases h : a = k
    · subst h; simp [setKey, keys, containsKey_cons]
    · simp only [setKey, if_neg h, keys, List.map_cons] at ih ⊢
      rw [ih]
      by_cases hc : containsKey rest k <;>
        simp [containsKey_cons, h, hc]

theorem mem_keys_of_mem (d : Dict) (k : String) (v : Value) (h : (k, v) ∈ d) :
    k ∈ keys d :=
  List.mem_map_of_mem Prod.fst h

theorem containsKey_iff_mem_keys (d : Dict) (k : String) :
    containsKey d k = true ↔ k ∈ keys d := by
  induction d with
  | nil => simp [keys]
  | cons kv rest ih =>
    obtain ⟨a, b⟩ := kv
    simp only [keys, List.map_cons, List.mem_cons] at ih ⊢
    rw [containsKey_cons]
    by_cases h : a = k
    · simp [h]
    · simp [h, Ne.symm h, ih]

theorem WF_nil : WF [] := by simp [WF, keys]

theorem WF_cons_iff (a : String) (b : Value) (rest : Dict) :
    WF ((a, b) :: rest) ↔ a ∉ keys rest ∧ WF rest := by
  simp [WF, keys]

theorem WF_filter (p : String × Value → Bool) (d : Dict) (h : WF d) :
    WF (d.filter p) :=
  h.sublist (List.Sublist.map Prod.fst (List.filter_sublist d))

theorem WF_eraseKey (d : Dict) (k : String) (h : WF d) : WF (eraseKey d k) :=
  WF_filter _ d h

theorem WF_setKey (d : Dict) (k : String) (v : Value) (h : WF d) :
    WF (setKey d k v) := by
  unfold WF
  rw [keys_setKey]
  by_cases hc : containsKey d k
  · simpa [hc] using h
  · have hk : k ∉ keys d := fun hm => hc ((containsKey_iff_mem_keys d k).mpr hm)
    rw [if_neg hc]
    exact List.Nodup.append h (List.nodup_singleton k)
      (List.disjoint_singleton.mpr hk)

theorem getv?_eq_some_iff_mem (d : Dict) (h : WF d) (k : String) (v : Value) :
    getv? d k = some v ↔ (k, v) ∈ d := by
  induction d with
  | nil => simp
  | cons kv rest ih =>
    obtain ⟨a, b⟩ := kv
    obtain ⟨hak, hrest⟩ := (WF_cons_iff a b rest).mp h
    by_cases hk : a = k
    · subst hk
      constructor
      · intro hv
        rw [getv?_cons, if_pos rfl] at hv
        injection hv with hv
        exact List.mem_cons.mpr (Or.inl (by rw [hv]))
      · intro hm
        rcases List.mem_cons.mp hm with heq | hmem
        · injection heq with h1 h2
          subst h2
          simp
        · exact absurd (mem_keys_of_mem rest a v hmem) hak
    · rw [getv?_cons, if_neg hk, ih hrest]
      constructor
      · exact List.mem_cons_of_mem _
      · intro hm
        rcases List.mem_cons.mp hm with heq | hmem
        · injection heq with h1 h2
          exact absurd h1.symm hk
        · exact hmem

theorem getv?_filter_eq_some_iff (p : String × Value → Bool) (d : Dict) (h : WF d)
    (k : String) (v : Value) :
    getv? (d.filter p) k = some v ↔ getv? d k = some v ∧ p (k, v) = true := by
  rw [getv?_eq_some_iff_mem _ (WF_filter p d h), getv?_eq_some_iff_mem _ h,
    List.mem_filter]

end VPCS

namespace VPCSDevice

open VPCS

theorem updateCallback_cons (s : Dict) (a : String) (b : Value) (rest : Dict) :
    updateCallback s ((a, b) :: rest) =
      updateCallback (if containsKey s a ∧ getv? s a ≠ some b then setKey s a b else s)
        rest := rfl

theorem updateCallback_frame (r : Dict) (s : Dict) (k : String)
    (h : containsKey r k = false) :
    getv? (updateCallback s r) k = getv? s k := by
  induction r generalizing s with
  | nil => rfl
  | cons kv rest ih =>
    obtain ⟨a, b⟩ := kv
    simp only [containsKey_cons, Bool.or_eq_false_iff, decide_eq_false_iff_not] at h
    obtain ⟨hak, hrest⟩ := h
    rw [updateCallback_cons, ih _ hrest]
    split
    · exact getv?_setKey_other s a k b (Ne.symm hak)
    · rfl

theorem updateCallback_getv (r : Dict) (s : Dict) (k : String) (v : Value)
    (hr : WF r) (hk : containsKey s k = true) (hv : getv? r k = some v) :
    getv? (updateCallback s r) k = some v := by
  induction r generalizing s with
  | nil => simp at hv
  | cons kv rest ih =>
    obtain ⟨a, b⟩ := kv
    obtain ⟨hak, hrest⟩ := (WF_cons_iff a b rest).mp hr
    rw [updateCallback_cons]
    by_cases heq : a = k
    · subst heq
      rw [getv?_cons, if_pos rfl] at hv
      injection hv with hv
      subst hv
      have hnotin : containsKey rest a = false := by
        cases hx : containsKey rest a with
        | false => rfl
        | true => exact absurd ((containsKey_iff_mem_keys rest a).mp hx) hak
      rw [updateCallback_frame rest _ a hnotin]
      split
      · exact getv?_setKey_self s a b
      · rename_i hcond
        rcases not_and_or.mp hcond with h1 | h2
        · exact absurd hk h1
        · exact not_not.mp h2
    · rw [getv?_cons, if_neg heq] at hv
      have hk' : containsKey
          (if containsKey s a ∧ getv? s a ≠ some b then setKey s a b else s) k = true := by
        split
        · rename_i hcond
          rw [containsKey_setKey_of_containsKey s a k b hcond.1]
          exact hk
        · exact hk
      exact ih _ hrest hk' hv

theorem containsKey_updateCallback (r s : Dict) (k : String) :
    containsKey (updateCallback s r) k = containsKey s k := by
  induction r generalizing s with
  | nil => rfl
  | cons kv rest ih =>
    obtain ⟨a, b⟩ := kv
    rw [updateCallback_cons, ih]
    split
    · rename_i hcond
      exact containsKey_setKey_of_containsKey s a k b hcond.1
    · rfl

theorem dumpPropsAux_cons (kv : String × Value) (rest props : Dict) :
    dumpPropsAux (kv :: rest) props = dumpPropsAux rest (dumpStep props kv) := rfl

theorem dumpPropsAux_frame (s : Dict) (props : Dict) (k : String)
    (h : k ∉ keys s) :
    getv? (dumpPropsAux s props) k = getv? props k := by
  induction s generalizing props with
  | nil => rfl
  | cons kv rest ih =>
    obtain ⟨a, b⟩ := kv
    simp only [keys, List.map_cons, List.mem_cons, not_or] at h
    obtain ⟨hak, hrest⟩ := h
    rw [dumpPropsAux_cons, ih _ (by simpa [keys] using hrest)]
    simp only [dumpStep]
    split
    · split
      · exact getv?_setKey_other props a k _ hak
      · rfl
    · rfl

theorem dumpPropsAux_no_ss (s props : Dict)
    (h : containsKey props "startup_script" = false) :
    containsKey (dumpPropsAux s props) "startup_script" = false := by
  induction s generalizing props with
  | nil => exact h
  | cons kv rest ih =>
    obtain ⟨a, b⟩ := kv
    rw [dumpPropsAux_cons]
    apply ih
    simp only [dumpStep]
    split
    · split
      · rename_i h1 h2
        rw [containsKey_eq_false_iff] at h ⊢
        rw [getv?_setKey_other _ _ _ _ (Ne.symm h2)]
        exact h
      · exact h
    · exact h

theorem dumpPropsAux_getv (s : Dict) (props : Dict) (k : String) (v : Value)
    (hs : WF s) (hv : getv? s k = some v) (h0 : v ≠ Value.null)
    (h1 : v ≠ Value.str "") (h2 : k ≠ "startup_script")
    (h3 : k ≠ "startup_script_path") :
    getv? (dumpPropsAux s props) k = some v := by
  induction s generalizing props with
  | nil => simp at hv
  | cons kv rest ih =>
    obtain ⟨a, b⟩ := kv
    obtain ⟨hak, hrest⟩ := (WF_cons_iff a b rest).mp hs
    rw [dumpPropsAux_cons]
    by_cases heq : a = k
    · subst heq
      rw [getv?_cons, if_pos rfl] at hv
      injection hv with hv
      subst hv
      rw [dumpPropsAux_frame rest _ a hak]
      simp only [dumpStep]
      rw [if_pos ⟨h0, h1⟩, if_pos h2, if_neg h3, getv?_setKey_self]
    · rw [getv?_cons, if_neg heq] at hv
      exact ih _ hrest hv

theorem dumpPropsAux_getv_ssp (s : Dict) (props : Dict) (p : String)
    (hs : WF s) (hv : getv? s "startup_script_path" = some (Value.str p))
    (hp : p ≠ "") :
    getv? (dumpPropsAux s props) "startup_script_path" =
      some (Value.str (basename p)) := by
  induction s generalizing props with
  | nil => simp at hv
  | cons kv rest ih =>
    obtain ⟨a, b⟩ := kv
    obtain ⟨hak, hrest⟩ := (WF_cons_iff a b rest).mp hs
    rw [dumpPropsAux_cons]
    by_cases heq : a = "startup_script_path"
    · subst heq
      rw [getv?_cons, if_pos rfl] at hv
      injection hv with hv
      subst hv
      rw [dumpPropsAux_frame rest _ "startup_script_path" hak]
      simp only [dumpStep]
      rw [if_pos ⟨by simp, fun h => hp (by injection h)⟩, if_pos (by decide)]
      simp [basenameV]
    · rw [getv?_cons, if_neg heq] at hv
      exact ih _ hrest hv

theorem dumpPropsAux_none (s props : Dict) (k : String)
    (hprops : containsKey props k = false)
    (hs : ∀ v, (k, v) ∈ s → v = Value.null ∨ v = Value.str "") :
    getv? (dumpPropsAux s props) k = none := by
  induction s generalizing props hprops with
  | nil => rw [containsKey_eq_false_iff] at hprops; exact hprops
  | cons kv rest ih =>
    obtain ⟨a, b⟩ := kv
    rw [dumpPropsAux_cons]
    apply ih
    · simp only [dumpStep]
      split
      · split
        · by_cases hak : a = k
          · subst hak
            rename_i hcond _
            rcases hs b (List.mem_cons_self _ _) with h | h
            · exact absurd h hcond.1
            · exact absurd h hcond.2
          · rw [containsKey_eq_false_iff] at hprops ⊢
            rw [getv?_setKey_other _ _ _ _ (Ne.symm hak)]
            exact hprops
        · exact hprops
      · exact hprops
    · intro v hv
      exact hs v (List.mem_cons_of_mem _ hv)

theorem WF_dumpPropsAux (s props : Dict) (h : WF props) :
    WF (dumpPropsAux s props) := by
  induction s generalizing props with
  | nil => exact h
  | cons kv rest ih =>
    rw [dumpPropsAux_cons]
    apply ih
    simp only [dumpStep]
    split
    · split
      · exact WF_setKey _ _ _ h
      · exact h
    · exact h

theorem WF_resolveScriptFile (fs : FS) (d : Dict) (h : WF d) :
    WF (resolveScriptFile fs d) := by
  unfold resolveScriptFile
  split
  · apply WF_eraseKey
    repeat' split
    all_goals first | exact h | exact WF_setKey _ _ _ h
  · exact h

theorem WF_resolveScriptSettings (fs : FS) (d : Dict) (h : WF d) :
    WF (resolveScriptSettings fs d) := by
  unfold resolveScriptSettings
  split
  · exact WF_eraseKey _ _ (WF_resolveScriptFile fs d h)
  · exact WF_resolveScriptFile fs d h

theorem rsf_no_sf (fs : FS) (d : Dict) :
    getv? (resolveScriptFile fs d) "script_file" = none := by
  unfold resolveScriptFile
  split
  · rw [getv?_eraseKey]; simp
  · rename_i h
    exact (containsKey_eq_false_iff _ _).mp (by simpa using h)

theorem rsf_ss_gain (fs : FS) (d : Dict) (p c : String)
    (hsf : getv? d "script_file" = some (Value.str p))
    (hif : fs.isfile p = true) (hrd : fs.readBaseConfig p = some c) :
    getv? (resolveScriptFile fs d) "startup_script" = some (Value.str c) := by
  unfold resolveScriptFile
  rw [if_pos (by simp [containsKey, hsf])]
  rw [getv?_eraseKey, if_neg (by decide)]
  rw [hsf]
  simp only [hif, if_true]
  rw [hrd]
  exact getv?_setKey_self d "startup_script" (Value.str c)

theorem rss_no_sf (fs : FS) (d : Dict) :
    getv? (resolveScriptSettings fs d) "script_file" = none := by
  unfold resolveScriptSettings
  split
  · rw [getv?_eraseKey, if_neg (by decide)]
    exact rsf_no_sf fs d
  · exact rsf_no_sf fs d

theorem rss_no_ssp (fs : FS) (d : Dict) :
    getv? (resolveScriptSettings fs d) "startup_script_path" = none := by
  unfold resolveScriptSettings
  split
  · rw [getv?_eraseKey]; simp
  · rename_i h
    exact (containsKey_eq_false_iff _ _).mp (by simpa using h)

theorem rss_ss_gain (fs : FS) (d : Dict) (p c : String)
    (hsf : getv? d "script_file" = some (Value.str p))
    (hif : fs.isfile p = true) (hrd : fs.readBaseConfig p = some c) :
    getv? (resolveScriptSettings fs d) "startup_script" = some (Value.str c) := by
  unfold resolveScriptSettings
  split
  · rw [getv?_eraseKey, if_neg (by decide)]
    exact rsf_ss_gain fs d p c hsf hif hrd
  · exact rsf_ss_gain fs d p c hsf hif hrd

theorem rss_getv_of_no_sf (fs : FS) (d : Dict) (k : String)
    (h : containsKey d "script_file" = false) :
    getv? (resolveScriptSettings fs d) k =
      if k = "startup_script_path" then none else getv? d k := by
  have hd : resolveScriptFile fs d = d := by
    unfold resolveScriptFile
    rw [if_neg (by simp [h])]
  unfold resolveScriptSettings
  rw [hd]
  split
  · rw [getv?_eraseKey]
  · rename_i hc
    by_cases hk : k = "startup_script_path"
    · subst hk
      rw [if_pos rfl]
      exact (containsKey_eq_false_iff _ _).mp (by simpa using hc)
    · rw [if_neg hk]

theorem create_mutated_eq_params (fs : FS) (nid : Value) (a : Dict) :
    (create fs nid a).mutated = (create fs nid a).params := rfl

theorem create_params (fs : FS) (nid : Value) (a : Dict) :
    (create fs nid a).params =
      if containsKey (resolveScriptSettings fs a) "startup_script" = true ∧ nid ≠ Value.null
      then eraseKey (resolveScriptSettings fs a) "startup_script"
      else resolveScriptSettings fs a := rfl

theorem create_params_no_ss (fs : FS) (a : Dict) (nid : Value)
    (h : nid ≠ Value.null) :
    containsKey (create fs nid a).params "startup_script" = false := by
  rw [create_params]
  split
  · rw [containsKey_eraseKey]; simp
  · rename_i hc
    rcases not_and_or.mp hc with h1 | h2
    · simpa using h1
    · exact absurd h h2

theorem create_params_no_sf (fs : FS) (nid : Value) (a : Dict) :
    getv? (create fs nid a).params "script_file" = none := by
  rw [create_params]
  split
  · rw [getv?_eraseKey, if_neg (by decide)]
    exact rss_no_sf fs a
  · exact rss_no_sf fs a

theorem create_params_no_ssp (fs : FS) (nid : Value) (a : Dict) :
    getv? (create fs nid a).params "startup_script_path" = none := by
  rw [create_params]
  split
  · rw [getv?_eraseKey, if_neg (by decide)]
    exact rss_no_ssp fs a
  · exact rss_no_ssp fs a

theorem create_null_params (fs : FS) (a : Dict) :
    (create fs Value.null a).params = resolveScriptSettings fs a := by
  rw [create_params, if_neg]
  rintro ⟨-, h⟩
  exact h rfl

theorem update_mutated (fs : FS) (s ns : Dict) :
    (update fs s ns).mutated = resolveScriptSettings fs ns := rfl

theorem update_patch (fs : FS) (s ns : Dict) :
    (update fs s ns).patch =
      (resolveScriptSettings fs ns).filter
        (fun kv => containsKey s kv.1 && decide (getv? s kv.1 ≠ some kv.2)) := rfl

theorem update_called (fs : FS) (s ns : Dict) :
    (update fs s ns).called = !(update fs s ns).patch.isEmpty := rfl

theorem getv?_dumpProperties (s : Dict) (k : String) (hwf : WF s)
    (h2 : k ≠ "startup_script") (h3 : k ≠ "startup_script_path") :
    getv? (dumpProperties s) k =
      match getv? s k with
      | some v => if v ≠ Value.null ∧ v ≠ Value.str "" then some v else none
      | none => none := by
  cases hv : getv? s k with
  | none =>
    have hk : k ∉ keys s := by
      intro hm
      rcases (containsKey_eq_true_iff s k).mp ((containsKey_iff_mem_keys s k).mpr hm) with ⟨w, hw⟩
      rw [hv] at hw
      exact Option.noConfusion hw
    unfold dumpProperties
    rw [dumpPropsAux_frame s _ k hk]
    rfl
  | some v =>
    by_cases hgood : v ≠ Value.null ∧ v ≠ Value.str ""
    · unfold dumpProperties
      rw [dumpPropsAux_getv s _ k v hwf hv hgood.1 hgood.2 h2 h3]
      simp [hgood]
    · have hall : ∀ w, (k, w) ∈ s → w = Value.null ∨ w = Value.str "" := by
        intro w hw
        have hws := (getv?_eq_some_iff_mem s hwf k w).mpr hw
        rw [hv] at hws
        injection hws with hwv
        subst hwv
        rcases not_and_or.mp hgood with h | h
        · exact Or.inl (not_not.mp h)
        · exact Or.inr (not_not.mp h)
      unfold dumpProperties
      rw [dumpPropsAux_none s baseDumpProperties k (containsKey_nil k) hall]
      simp [hgood]

/-- Claim C1: for every call to `update(newSettings)`, the outgoing patch
contains exactly those keys of `newSettings` (after `script_file`
resolution and `startup_script_path` removal, i.e. of the mutated
dictionary) that are present in the current settings map and whose value
differs from the currently stored value; if that patch is empty, no
network update call is made. -/
theorem claim_C1_update_diff (fs : FS) (settings new_settings : Dict)
    (k : String) (v : Value) (hwf : WF new_settings) :
    (getv? (update fs settings new_settings).patch k = some v ↔
      getv? (update fs settings new_settings).mutated k = some v ∧
        containsKey settings k = true ∧ getv? settings k ≠ some v) ∧
    ((update fs settings new_settings).patch = [] →
      (update fs settings new_settings).called = false) := by
  constructor
  · rw [update_patch, update_mutated]
    rw [getv?_filter_eq_some_iff _ _ (WF_resolveScriptSettings fs new_settings hwf)]
    simp only [Bool.and_eq_true, decide_eq_true_eq]
  · intro h
    rw [update_called, h]
    rfl

/-- Witness for C1 at a concrete update: the differing recognized key
`console` lands in the patch. -/
theorem claim_C1_witness :
    (getv? (update fsW [("console", Value.int 1)] [("console", Value.int 2)]).patch
        "console" = some (Value.int 2) ↔
      getv? (update fsW [("console", Value.int 1)] [("console", Value.int 2)]).mutated
          "console" = some (Value.int 2) ∧
        containsKey [("console", Value.int 1)] "console" = true ∧
        getv? [("console", Value.int 1)] "console" ≠ some (Value.int 2)) ∧
    ((update fsW [("console", Value.int 1)] [("console", Value.int 2)]).patch = [] →
      (update fsW [("console", Value.int 1)] [("console", Value.int 2)]).called = false) :=
  claim_C1_update_diff fsW [("console", Value.int 1)] [("console", Value.int 2)]
    "console" (Value.int 2) (by decide)

/-- Claim C2: for every `create` call with a non-null `nodeId`, the
parameter set passed to the base creation operation never contains
`startup_script`, even if the caller supplied one or a resolvable
`script_file`. -/
theorem claim_C2_create_excludes_script (fs : FS) (additional_settings : Dict)
    (node_id : Value) (h : node_id ≠ Value.null) :
    containsKey (create fs node_id additional_settings).params "startup_script" = false :=
  create_params_no_ss fs additional_settings node_id h

/-- Witness for C2: a caller-supplied `startup_script` plus a resolvable
`script_file` still never reach the creation parameters when a node id is
present. -/
theorem claim_C2_witness :
    containsKey (create fsW (Value.str "n-1")
        [("startup_script", Value.str "echo"),
         ("script_file", Value.str "/cfg/base.vpc")]).params "startup_script" = false :=
  claim_C2_create_excludes_script fsW
    [("startup_script", Value.str "echo"), ("script_file", Value.str "/cfg/base.vpc")]
    (Value.str "n-1") (by decide)

/-- Counterexample to C3 as stated: in the record
`{vpcs_id: "", node_id: "n1"}` the first *present* key is `vpcs_id` with
value `""`, yet the code resolves the id to `"n1"`, because the chain
advances on falsy (not merely absent) values. -/
theorem claim_C3_counterexample :
    resolveNodeId [("vpcs_id", Value.str ""), ("node_id", Value.str "n1")] = Value.str "n1" ∧
    specFirstPresentId [("vpcs_id", Value.str ""), ("node_id", Value.str "n1")] =
      Value.str "" ∧
    Value.str "n1" ≠ Value.str "" := by
  refine ⟨rfl, rfl, ?_⟩
  decide

/-- Claim C3 as amended: the resolved identifier equals the value of the
first key among `vpcs_id`, `node_id` whose value is truthy, and otherwise
equals the `vm_id` lookup (its value when present, null when absent). -/
theorem claim_C3_amended_resolution (node_info : Dict) :
    resolveNodeId node_info = specResolveAmended node_info := by
  unfold resolveNodeId specResolveAmended
  by_cases h1 : truthy (pyget node_info "vpcs_id") <;>
    by_cases h2 : truthy (pyget node_info "node_id") <;>
      simp [List.find?, h1, h2]

/-- Claim C6: a non-error export callback whose response contains the
`startup_script` key always creates a file at the target path — presence
of the key, not truthiness of the body, gates file creation — and the
file's content is the script body when the body is truthy and empty
otherwise. -/
theorem claim_C6_export_presence_gates_write (deviceId : Int) (result : Dict)
    (path s : String) (body : Value)
    (hbody : getv? result "startup_script" = some body) :
    ((exportConfigCallback deviceId result false path true).written).isSome = true ∧
    ((body = Value.null ∨ body = Value.str "") →
      (exportConfigCallback deviceId result false path true).written =
        some { path := path, content := "" }) ∧
    (body = Value.str s → s ≠ "" →
      (exportConfigCallback deviceId result false path true).written =
        some { path := path, content := s }) := by
  have hck : containsKey result "startup_script" = true := by simp [containsKey, hbody]
  have hpg : pyget result "startup_script" = body := by simp [pyget, hbody]
  unfold exportConfigCallback
  rw [if_neg (by simp), if_pos hck, if_pos rfl, hpg]
  refine ⟨rfl, ?_, ?_⟩
  · rintro (rfl | rfl) <;> simp [truthy]
  · rintro rfl hs
    simp [truthy, hs, scriptText]

/-- Witness for C6: a present-but-null script body still yields a
(written, empty) file. -/
theorem claim_C6_witness :
    ((exportConfigCallback 7 [("startup_script", Value.null)] false "/out.vpc" true).written).isSome = true ∧
    ((Value.null = Value.null ∨ Value.null = Value.str "") →
      (exportConfigCallback 7 [("startup_script", Value.null)] false "/out.vpc" true).written =
        some { path := "/out.vpc", content := "" }) ∧
    (Value.null = Value.str "x" → "x" ≠ "" →
      (exportConfigCallback 7 [("startup_script", Value.null)] false "/out.vpc" true).written =
        some { path := "/out.vpc", content := "x" }) :=
  claim_C6_export_presence_gates_write 7 [("startup_script", Value.null)] "/out.vpc" "x"
    Value.null (by decide)

/-- Claim C7: an export callback invoked with the error flag emits exactly
one server-error notification, tagged with the device id, carrying the
response's message verbatim, and writes no file. -/
theorem claim_C7_export_error (deviceId : Int) (result : Dict) (path : String)
    (openOk : Bool) (m : Value) (hmsg : getv? result "message" = some m) :
    (exportConfigCallback deviceId result true path openOk).signals =
      [Signal.serverError deviceId m] ∧
    (exportConfigCallback deviceId result true path openOk).written = none := by
  unfold exportConfigCallback
  rw [if_pos rfl]
  exact ⟨by simp [pyget, hmsg], rfl⟩

/-- Witness for C7 at a concrete errored callback. -/
theorem claim_C7_witness :
    (exportConfigCallback 7 [("message", Value.str "boom")] true "/out.vpc" true).signals =
      [Signal.serverError 7 (Value.str "boom")] ∧
    (exportConfigCallback 7 [("message", Value.str "boom")] true "/out.vpc" true).written =
      none :=
  claim_C7_export_error 7 [("message", Value.str "boom")] "/out.vpc" true
    (Value.str "boom") (by decide)

/-- Claim C8: when the directory listing lacks
`<normalized-name>_startup.vpc`, `importConfigFromDirectory` emits exactly
one warning naming the expected filename and performs no update call; and
when the listing itself fails, it emits one warning tagged with the device
id and performs no update call. -/
theorem importConfigFromDirectory_ok (deviceId : Int) (nn dir : String)
    (contents : List String) :
    importConfigFromDirectory deviceId nn dir (Except.ok contents) =
      (if (nn ++ "_startup.vpc") ∈ contents then
        { signals := [],
          updateArg := some [("script_file", Value.str (joinPath dir (nn ++ "_startup.vpc")))] }
      else
        { signals := [Signal.warningSig deviceId
            ("no script file could be found, expected file name: " ++ (nn ++ "_startup.vpc"))],
          updateArg := none }) := rfl

theorem claim_C8_import_miss (deviceId : Int) (normalizedName directory : String)
    (contents : List String) (e : String)
    (hmiss : (normalizedName ++ "_startup.vpc") ∉ contents) :
    importConfigFromDirectory deviceId normalizedName directory (Except.ok contents) =
      { signals := [Signal.warningSig deviceId
          ("no script file could be found, expected file name: " ++
            (normalizedName ++ "_startup.vpc"))],
        updateArg := none } ∧
    importConfigFromDirectory deviceId normalizedName directory (Except.error e) =
      { signals := [Signal.warningSig deviceId
          ("Can't list file in " ++ directory ++ ": " ++ e)],
        updateArg := none } := by
  constructor
  · rw [importConfigFromDirectory_ok, if_neg hmiss]
  · rfl

/-- Witness for C8 at a concrete directory listing missing the script. -/
theorem claim_C8_witness :
    importConfigFromDirectory 7 "pc1" "/dir" (Except.ok ["other.txt"]) =
      { signals := [Signal.warningSig 7
          ("no script file could be found, expected file name: " ++
            ("pc1" ++ "_startup.vpc"))],
        updateArg := none } ∧
    importConfigFromDirectory 7 "pc1" "/dir" (Except.error "denied") =
      { signals := [Signal.warningSig 7
          ("Can't list file in " ++ "/dir" ++ ": " ++ "denied")],
        updateArg := none } :=
  claim_C8_import_miss 7 "pc1" "/dir" ["other.txt"] "denied" (by decide)

/-- Claim C9: the update callback overwrites every recognized settings key
the response mentions with a differing value, and leaves every settings
entry whose key the response does not mention unchanged — a sparse merge,
not a full replace. -/
theorem claim_C9_sparse_merge (settings response : Dict) (k k2 : String) (v : Value)
    (hwf : WF response) (hrec : containsKey settings k = true)
    (hresp : getv? response k = some v) (_hdiff : getv? settings k ≠ some v)
    (hnot : containsKey response k2 = false) :
    getv? (updateCallback settings response) k = some v ∧
    getv? (updateCallback settings response) k2 = getv? settings k2 :=
  ⟨updateCallback_getv response settings k v hwf hrec hresp,
   updateCallback_frame response settings k2 hnot⟩

/-- Witness for C9: the mentioned key `console` is overwritten, the
unmentioned key `console_host` is untouched. -/
theorem claim_C9_witness :
    getv? (updateCallback [("console", Value.int 1), ("console_host", Value.str "h")]
        [("console", Value.int 2)]) "console" = some (Value.int 2) ∧
    getv? (updateCallback [("console", Value.int 1), ("console_host", Value.str "h")]
        [("console", Value.int 2)]) "console_host" =
      getv? [("console", Value.int 1), ("console_host", Value.str "h")] "console_host" :=
  claim_C9_sparse_merge [("console", Value.int 1), ("console_host", Value.str "h")]
    [("console", Value.int 2)] "console" "console_host" (Value.int 2)
    (by decide) (by decide) (by decide) (by decide) (by decide)

/-- Claim C10: `create` and `update` mutate the caller-supplied dictionary
in place — afterwards it holds neither `script_file` nor
`startup_script_path`, has gained the `startup_script` resolved from
`script_file`, and, for `create` with a non-null node id, has lost any
`startup_script` entry. -/
theorem claim_C10_caller_mutation (fs : FS)
    (settings new_settings additional_settings : Dict) (node_id : Value) (p c : String)
    (hsf : getv? new_settings "script_file" = some (Value.str p))
    (hisf : fs.isfile p = true) (hread : fs.readBaseConfig p = some c)
    (hnid : node_id ≠ Value.null) :
    getv? (update fs settings new_settings).mutated "script_file" = none ∧
    getv? (update fs settings new_settings).mutated "startup_script_path" = none ∧
    getv? (update fs settings new_settings).mutated "startup_script" = some (Value.str c) ∧
    getv? (create fs node_id additional_settings).mutated "script_file" = none ∧
    getv? (create fs node_id additional_settings).mutated "startup_script_path" = none ∧
    containsKey (create fs node_id additional_settings).mutated "startup_script" = false := by
  refine ⟨?_, ?_, ?_, ?_, ?_, ?_⟩
  · rw [update_mutated]
    exact rss_no_sf fs new_settings
  · rw [update_mutated]
    exact rss_no_ssp fs new_settings
  · rw [update_mutated]
    exact rss_ss_gain fs new_settings p c hsf hisf hread
  · rw [create_mutated_eq_params]
    exact create_params_no_sf fs node_id additional_settings
  · rw [create_mutated_eq_params]
    exact create_params_no_ssp fs node_id additional_settings
  · rw [create_mutated_eq_params]
    exact create_params_no_ss fs additional_settings node_id hnid

/-- Witness for C10 at a concrete update and create. -/
theorem claim_C10_witness :
    getv? (update fsW [] [("script_file", Value.str "/cfg/base.vpc")]).mutated
      "script_file" = none ∧
    getv? (update fsW [] [("script_file", Value.str "/cfg/base.vpc")]).mutated
      "startup_script_path" = none ∧
    getv? (update fsW [] [("script_file", Value.str "/cfg/base.vpc")]).mutated
      "startup_script" = some (Value.str "set pcname PC1") ∧
    getv? (create fsW (Value.str "n-1") [("startup_script", Value.str "x")]).mutated
      "script_file" = none ∧
    getv? (create fsW (Value.str "n-1") [("startup_script", Value.str "x")]).mutated
      "startup_script_path" = none ∧
    containsKey (create fsW (Value.str "n-1") [("startup_script", Value.str "x")]).mutated
      "startup_script" = false :=
  claim_C10_caller_mutation fsW [] [("script_file", Value.str "/cfg/base.vpc")]
    [("startup_script", Value.str "x")] (Value.str "n-1") "/cfg/base.vpc"
    "set pcname PC1" (by decide) (by decide) (by decide) (by decide)

theorem getv?_loadVmSettings (settings properties : VPCS.Dict) (k : String) :
    VPCS.getv? (loadVmSettings settings properties) k =
      if VPCS.containsKey settings k then VPCS.getv? properties k else none :=
  VPCS.getv?_filter_key (VPCS.containsKey settings) properties k

theorem loadVm_no_sf (P : VPCS.Dict) :
    VPCS.containsKey (VPCS.eraseKey (loadVmSettings freshSettings P) "name")
      "script_file" = false := by
  rw [VPCS.containsKey_eq_false_iff, VPCS.getv?_eraseKey, if_neg (by decide),
    getv?_loadVmSettings, if_neg (by decide)]

theorem loadVm_name (P : VPCS.Dict) (n : String) :
    VPCS.pyget (loadVmSettings freshSettings (VPCS.setKey P "name" (VPCS.Value.str n)))
      "name" = VPCS.Value.str n := by
  unfold VPCS.pyget
  rw [getv?_loadVmSettings, if_pos (by decide), VPCS.getv?_setKey_self]
  rfl

theorem updateCallback_absent (r s : VPCS.Dict) (k : String)
    (h : VPCS.containsKey s k = false) :
    VPCS.getv? (updateCallback s r) k = none :=
  (VPCS.containsKey_eq_false_iff _ _).mp (by rw [containsKey_updateCallback]; exact h)

theorem roundTrip_eq (fs : VPCS.FS) (s : VPCS.Dict) (n : String) :
    roundTrip fs s n =
      VPCS.setKey (updateCallback freshSettings
          (resolveScriptSettings fs
            (VPCS.eraseKey (loadVmSettings freshSettings
              (VPCS.setKey (dumpProperties s) "name" (VPCS.Value.str n))) "name")))
        "name" (VPCS.Value.str n) := by
  have h0 : roundTrip fs s n =
      VPCS.setKey (updateCallback freshSettings
          (create fs (resolveNodeId []) (VPCS.eraseKey (loadVmSettings freshSettings
            (VPCS.setKey (dumpProperties s) "name" (VPCS.Value.str n))) "name")).params)
        "name" (VPCS.pyget (loadVmSettings freshSettings
          (VPCS.setKey (dumpProperties s) "name" (VPCS.Value.str n))) "name") := rfl
  rw [h0, loadVm_name, show resolveNodeId ([] : VPCS.Dict) = VPCS.Value.null from rfl,
    create_null_params]

/-- Claim C4: for every settings state, the properties map produced by
`dump` never contains a `startup_script` key; every key it does contain
comes from a settings entry whose value is neither null nor the empty
string; and whenever `startup_script_path` is set (to a non-empty string
path), its dumped value is only the final path segment (basename) of the
stored path. -/
theorem claim_C4_dump_exclusions (s : Dict) (k p : String) (hwf : WF s) :
    containsKey (dumpProperties s) "startup_script" = false ∧
    (containsKey (dumpProperties s) k = true →
      getv? s k ≠ none ∧ getv? s k ≠ some Value.null ∧
        getv? s k ≠ some (Value.str "")) ∧
    (getv? s "startup_script_path" = some (Value.str p) → p ≠ "" →
      getv? (dumpProperties s) "startup_script_path" =
        some (Value.str (basename p))) := by
  refine ⟨dumpPropsAux_no_ss s baseDumpProperties (containsKey_nil _), ?_, ?_⟩
  · intro hk
    have h2 : ¬ ∀ w, (k, w) ∈ s → w = Value.null ∨ w = Value.str "" := by
      intro hall
      have hnone := dumpPropsAux_none s baseDumpProperties k (containsKey_nil k) hall
      rw [containsKey_eq_true_iff] at hk
      obtain ⟨w, hw⟩ := hk
      unfold dumpProperties at hw
      rw [hnone] at hw
      exact Option.noConfusion hw
    push_neg at h2
    obtain ⟨v, hmem, hv1, hv2⟩ := h2
    have hv : getv? s k = some v := (getv?_eq_some_iff_mem s hwf k v).mpr hmem
    refine ⟨?_, ?_, ?_⟩
    · rw [hv]
      exact fun h => Option.noConfusion h
    · rw [hv]
      intro h
      injection h with h
      exact hv1 h
    · rw [hv]
      intro h
      injection h with h
      exact hv2 h
  · intro hssp hp
    exact dumpPropsAux_getv_ssp s baseDumpProperties p hwf hssp hp

/-- Witness for C4 at a concrete settings state with a null value, a
script body and an absolute script path, at the dumped key `name`. -/
theorem claim_C4_witness :
    containsKey (dumpProperties
        (mkS "PC1" Value.null (Value.str "body") (Value.str "/a/b.vpc") (Value.int 0)))
      "startup_script" = false ∧
    (containsKey (dumpProperties
        (mkS "PC1" Value.null (Value.str "body") (Value.str "/a/b.vpc") (Value.int 0)))
      "name" = true →
      getv? (mkS "PC1" Value.null (Value.str "body") (Value.str "/a/b.vpc") (Value.int 0))
          "name" ≠ none ∧
        getv? (mkS "PC1" Value.null (Value.str "body") (Value.str "/a/b.vpc") (Value.int 0))
          "name" ≠ some Value.null ∧
        getv? (mkS "PC1" Value.null (Value.str "body") (Value.str "/a/b.vpc") (Value.int 0))
          "name" ≠ some (Value.str "")) ∧
    (getv? (mkS "PC1" Value.null (Value.str "body") (Value.str "/a/b.vpc") (Value.int 0))
        "startup_script_path" = some (Value.str "/a/b.vpc") → "/a/b.vpc" ≠ "" →
      getv? (dumpProperties
          (mkS "PC1" Value.null (Value.str "body") (Value.str "/a/b.vpc") (Value.int 0)))
        "startup_script_path" = some (Value.str (basename "/a/b.vpc"))) :=
  claim_C4_dump_exclusions
    (mkS "PC1" Value.null (Value.str "body") (Value.str "/a/b.vpc") (Value.int 0))
    "name" "/a/b.vpc" (by decide)

/-- Counterexample to C5 as stated: for a device whose
`startup_script_path` is `"/a/b.vpc"`, dumping and re-loading yields a
null `startup_script_path` — `dump` keeps only the basename and `create`
then strips the key from the outgoing parameters entirely — so a key
other than the excluded `startup_script` fails to round-trip. -/
theorem claim_C5_counterexample :
    getv? (roundTrip fsW
        (mkS "PC1" Value.null (Value.str "body") (Value.str "/a/b.vpc") (Value.int 5000))
        "PC1") "startup_script_path" = some Value.null ∧
    getv? (mkS "PC1" Value.null (Value.str "body") (Value.str "/a/b.vpc") (Value.int 5000))
      "startup_script_path" = some (Value.str "/a/b.vpc") ∧
    (some Value.null ≠ some (Value.str "/a/b.vpc")) ∧
    ("startup_script_path" : String) ≠ "startup_script" := by
  refine ⟨by decide, by decide, by decide, by decide⟩

/-- Claim C5 as amended: dumping a device and loading a fresh one from the
dump's properties (re-injecting the name) restores every setting except
`startup_script` (excluded by the claim already) and `startup_script_path`
(which never survives the trip: `dump` stores only its basename and the
creation protocol strips the key from the outgoing parameters), provided
no other setting holds the empty string (`dump` drops empty values, so
they would reload as null). -/
theorem claim_C5_amended_roundtrip (fs : FS) (n sspPath : String)
    (ch ssv ssp c : Value) (k : String)
    (hch : ch ≠ Value.str "") (hc : c ≠ Value.str "")
    (_hsspKind : ssp = Value.null ∨ ssp = Value.str sspPath)
    (hk1 : k ≠ "startup_script") (hk2 : k ≠ "startup_script_path") :
    getv? (roundTrip fs (mkS n ch ssv ssp c) n) k =
      getv? (mkS n ch ssv ssp c) k := by
  have hwfS : WF (mkS n ch ssv ssp c) := by
    simp only [mkS, WF, keys, List.map_cons, List.map_nil]
    decide
  rw [roundTrip_eq]
  by_cases hkn : k = "name"
  · subst hkn
    rw [getv?_setKey_self]
    simp [mkS]
  · rw [getv?_setKey_other _ _ _ _ hkn]
    have hnosf := loadVm_no_sf
      (setKey (dumpProperties (mkS n ch ssv ssp c)) "name" (Value.str n))
    have hRSS : ∀ k2, k2 ≠ "name" → k2 ≠ "startup_script" →
        k2 ≠ "startup_script_path" → containsKey freshSettings k2 = true →
        getv? (resolveScriptSettings fs (eraseKey (loadVmSettings freshSettings
          (setKey (dumpProperties (mkS n ch ssv ssp c)) "name" (Value.str n)))
          "name")) k2 =
          (match getv? (mkS n ch ssv ssp c) k2 with
           | some v => if v ≠ Value.null ∧ v ≠ Value.str "" then some v else none
           | none => none) := by
      intro k2 hn hss hssp hf
      rw [rss_getv_of_no_sf fs _ k2 hnosf, if_neg hssp, getv?_eraseKey, if_neg hn,
        getv?_loadVmSettings, if_pos hf, getv?_setKey_other _ _ _ _ hn,
        getv?_dumpProperties _ k2 hwfS hss hssp]
    have hwfparams : WF (resolveScriptSettings fs (eraseKey (loadVmSettings
        freshSettings (setKey (dumpProperties (mkS n ch ssv ssp c)) "name"
          (Value.str n))) "name")) :=
      WF_resolveScriptSettings fs _ (WF_eraseKey _ _ (WF_filter _ _
        (WF_setKey _ _ _ (WF_dumpPropsAux _ _ WF_nil))))
    by_cases hkch : k = "console_host"
    · subst hkch
      have hSk : getv? (mkS n ch ssv ssp c) "console_host" = some ch := by
        simp [mkS]
      have h5 := hRSS "console_host" (by decide) (by decide) (by decide) (by decide)
      rw [hSk] at h5
      rw [hSk]
      by_cases hnull : ch = Value.null
      · have h5n : getv? (resolveScriptSettings fs (eraseKey (loadVmSettings
            freshSettings (setKey (dumpProperties (mkS n ch ssv ssp c)) "name"
              (Value.str n))) "name")) "console_host" = none := by
          rw [h5, hnull]
          simp
        rw [updateCallback_frame _ _ _ ((containsKey_eq_false_iff _ _).mpr h5n), hnull]
        rfl
      · simp [hnull, hch] at h5
        exact updateCallback_getv _ freshSettings "console_host" ch hwfparams
          (by decide) h5
    · by_cases hkc : k = "console"
      · subst hkc
        have hSk : getv? (mkS n ch ssv ssp c) "console" = some c := by
          simp [mkS]
        have h5 := hRSS "console" (by decide) (by decide) (by decide) (by decide)
        rw [hSk] at h5
        rw [hSk]
        by_cases hnull : c = Value.null
        · have h5n : getv? (resolveScriptSettings fs (eraseKey (loadVmSettings
              freshSettings (setKey (dumpProperties (mkS n ch ssv ssp c)) "name"
                (Value.str n))) "name")) "console" = none := by
            rw [h5, hnull]
            simp
          rw [updateCallback_frame _ _ _ ((containsKey_eq_false_iff _ _).mpr h5n), hnull]
          rfl
        · simp [hnull, hc] at h5
          exact updateCallback_getv _ freshSettings "console" c hwfparams
            (by decide) h5
      · have hSk : getv? (mkS n ch ssv ssp c) k = none := by
          simp [mkS, Ne.symm hkn, Ne.symm hkch, Ne.symm hkc, Ne.symm hk1, Ne.symm hk2]
        have hfk : containsKey freshSettings k = false := by
          rw [containsKey_eq_false_iff]
          simp [freshSettings, Ne.symm hkn, Ne.symm hkch, Ne.symm hkc, Ne.symm hk1,
            Ne.symm hk2]
        rw [hSk, updateCallback_absent _ _ _ hfk]

/-- Witness for the amended C5 at a concrete device state and key. -/
theorem claim_C5_witness :
    getv? (roundTrip fsW
        (mkS "PC1" (Value.str "h") (Value.str "sss") Value.null (Value.int 5000)) "PC1")
      "console" =
      getv? (mkS "PC1" (Value.str "h") (Value.str "sss") Value.null (Value.int 5000))
        "console" :=
  claim_C5_amended_roundtrip fsW "PC1" "b" (Value.str "h") (Value.str "sss")
    Value.null (Value.int 5000) "console" (by decide) (by decide) (Or.inl rfl)
    (by decide) (by decide)

end VPCSDevice
